import Mathlib

/-!
# Verification of the task-scheduler core (`scheduler.py`)

Shallow embedding of the scheduling daemon in `src/scheduler.py`:
the schedule matcher (`should_task_run`, `_should_run_cron`,
`_should_run_legacy`), the deduplication key (`_get_dedup_key`), the two
executors (`run_task`, `run_http_task`), the per-task step of the main
loop, and the configuration validator (`load_tasks`, `validate_task`).

Modelling conventions:
* Timestamps are integer seconds of local (Pacific) wall-clock time since
  1970-01-01 00:00:00, a `Nat`.  The timezone offset is treated as fixed
  (claims do not straddle DST transitions) and sub-second precision is
  dropped.  Broken-down civil fields are computed with the standard
  days-from-civil algorithm; `1970-01-01` was a Thursday, so the Python
  `datetime.weekday()` convention (Monday = 0) is `(days + 3) % 7`.
* `croniter(expr, now).get_prev(datetime)` returns the latest occurrence
  of the expression *strictly before* `now` (croniter's own `match`
  classmethod has to add one microsecond to the probe time to make an
  exactly-matching instant count).  Occurrences of a 5-field expression
  are minute-aligned.  The backward search is modelled with a large fuel,
  mirroring croniter's bounded scan; an exhausted search yields no firing
  exactly as an exhausted croniter scan does (its error is swallowed by
  the loop-level handler, so no task fires either way).
* The cron expression language is modelled on the subset used by the
  configuration format: numeric fields, `*`, `a`, `a-b`, `*/k`, `a-b/k`
  and comma lists, with day-of-week `0-7` (`7 = 0 = Sunday`) and the
  standard vixie day-of-month/day-of-week "or" rule that croniter
  implements (a field left as a literal `*` is unrestricted).
* Python dict state (`last_runs`) is a function `String → Option String`;
  `dict.get` of an absent key is `none`, and `None == key` is false.
* Subprocess and HTTP transport are oracles passed to the executors; an
  oracle answer models the result of `subprocess.run` / `requests.request`
  including the raised-exception outcomes that the source catches.
-/

/-! ## Civil time -/

/-- Broken-down local time, the fields of a Python `datetime`. -/
structure Civil where
  year : Nat
  month : Nat
  day : Nat
  hour : Nat
  minute : Nat
  second : Nat
deriving DecidableEq

/-- Year, month and day from a count of days since 1970-01-01
(Howard Hinnant's `civil_from_days`, shifted to stay in `Nat`). -/
def civilFromDays (z : Nat) : Nat × Nat × Nat :=
  let zd := z + 719468
  let era := zd / 146097
  let doe := zd % 146097
  let yoe := (doe - doe / 1460 + doe / 36524 - doe / 146096) / 365
  let y := yoe + era * 400
  let doy := doe - (365 * yoe + yoe / 4 - yoe / 100)
  let mp := (5 * doy + 2) / 153
  let d := doy - (153 * mp + 2) / 5 + 1
  let m := if mp < 10 then mp + 3 else mp - 9
  (if m ≤ 2 then y + 1 else y, m, d)

/-- Broken-down civil time of a local timestamp (seconds since epoch). -/
def civil (s : Nat) : Civil :=
  let ymd := civilFromDays (s / 86400)
  { year := ymd.1, month := ymd.2.1, day := ymd.2.2,
    hour := s % 86400 / 3600, minute := s % 86400 % 3600 / 60,
    second := s % 60 }

/-- Python `datetime.weekday()`: Monday = 0 … Sunday = 6. -/
def pyWeekday (s : Nat) : Nat :=
  (s / 86400 + 3) % 7

/-- Cron day-of-week numbering: Sunday = 0 … Saturday = 6. -/
def cronDowOf (s : Nat) : Nat :=
  (pyWeekday s + 1) % 7

/-- Zero-padded two-digit decimal, as `strftime` prints field values. -/
def pad2 (n : Nat) : String :=
  if n < 10 then "0" ++ toString n else toString n

/-- `strftime("%Y-%m-%d")`. -/
def fmtDate (c : Civil) : String :=
  toString c.year ++ "-" ++ pad2 c.month ++ "-" ++ pad2 c.day

/-- `strftime("%Y-%m-%d %H")`, the legacy-task dedup key. -/
def fmtHourKey (c : Civil) : String :=
  fmtDate c ++ " " ++ pad2 c.hour

/-- `strftime("%Y-%m-%d %H:%M")`, the cron-task dedup key. -/
def fmtMinuteKey (c : Civil) : String :=
  fmtHourKey c ++ ":" ++ pad2 c.minute

/-! ## Cron expressions -/

/-- One expanded cron field: croniter keeps a literal `*` unexpanded
(`star`), every other form becomes the list of allowed values. -/
structure CronField where
  star : Bool
  vals : List Nat
deriving DecidableEq

/-- Membership test for one field; a literal `*` matches everything. -/
def CronField.matches (f : CronField) (x : Nat) : Bool :=
  f.star || f.vals.contains x

/-- A parsed 5-field cron expression. -/
structure CronExpr where
  minute : CronField
  hour : CronField
  dom : CronField
  month : CronField
  dow : CronField
deriving DecidableEq

/-- `a, a+step, …` up to `b`. -/
def natRangeStep (a b step : Nat) : List Nat :=
  (List.range (b + 1 - a)).filterMap
    (fun i => if i % step = 0 then some (a + i) else none)

/-- Split a character list on a separator (kernel-computable stand-in for
`str.split(sep)`). -/
def splitOnChar (sep : Char) : List Char → List (List Char)
  | [] => [[]]
  | c :: cs =>
    if c = sep then [] :: splitOnChar sep cs
    else
      match splitOnChar sep cs with
      | [] => [[c]]
      | g :: gs => (c :: g) :: gs

/-- Decimal value of a nonempty all-digit character list, else `none`. -/
def digitsToNat (cs : List Char) : Option Nat :=
  if cs ≠ [] ∧ cs.all (·.isDigit) then
    some (cs.foldl (fun a c => 10 * a + (c.toNat - 48)) 0)
  else none

/-- Parse the core of a term (`*`, `a`, or `a-b`) with a step. -/
def parseCore (lo hi : Nat) (core : List Char) (step : Nat) : Option (List Nat) :=
  if core = ['*'] then some (natRangeStep lo hi step)
  else
    match splitOnChar '-' core with
    | [a] =>
      match digitsToNat a with
      | some n =>
        if lo ≤ n ∧ n ≤ hi then
          some (if step = 1 then [n] else natRangeStep n hi step)
        else none
      | none => none
    | [a, b] =>
      match digitsToNat a, digitsToNat b with
      | some x, some y =>
        if lo ≤ x ∧ x ≤ y ∧ y ≤ hi then some (natRangeStep x y step) else none
      | _, _ => none
    | _ => none

/-- Parse one comma-separated term, splitting off an optional `/step`. -/
def parseTerm (lo hi : Nat) (t : List Char) : Option (List Nat) :=
  match splitOnChar '/' t with
  | [core] => parseCore lo hi core 1
  | [core, st] =>
    match digitsToNat st with
    | some k => if k = 0 then none else parseCore lo hi core k
    | none => none
  | _ => none

/-- Parse one whole cron field. -/
def parseField (lo hi : Nat) (s : List Char) : Option CronField :=
  if s = ['*'] then some { star := true, vals := natRangeStep lo hi 1 }
  else
    match (splitOnChar ',' s).mapM (parseTerm lo hi) with
    | some lss => some { star := false, vals := lss.foldr (· ++ ·) [] }
    | none => none

/-- Parse a 5-field cron expression (the subset of croniter's grammar used
by this scheduler's configuration format); also the model of
`croniter.is_valid`.  Day-of-week values are taken mod 7 (`7 = Sunday`). -/
def parseCron (s : String) : Option CronExpr :=
  match (splitOnChar ' ' s.data).filter (· ≠ []) with
  | [mi, h, dm, mo, dw] => do
    let fmi ← parseField 0 59 mi
    let fh ← parseField 0 23 h
    let fdm ← parseField 1 31 dm
    let fmo ← parseField 1 12 mo
    let fdw ← parseField 0 7 dw
    some { minute := fmi, hour := fh, dom := fdm, month := fmo,
           dow := { star := fdw.star, vals := fdw.vals.map (· % 7) } }
  | _ => none

/-- The vixie-cron day rule croniter implements: when both day-of-month and
day-of-week are restricted a match on either suffices, otherwise both
fields (trivially for a `*`) must match. -/
def cronDayMatch (e : CronExpr) (dom w : Nat) : Bool :=
  if !e.dom.star && !e.dow.star then
    e.dom.vals.contains dom || e.dow.vals.contains w
  else
    e.dom.matches dom && e.dow.matches w

/-- Whether a broken-down instant (with its cron weekday) matches. -/
def cronMatchesCivil (e : CronExpr) (c : Civil) (w : Nat) : Bool :=
  e.minute.matches c.minute && e.hour.matches c.hour &&
    e.month.matches c.month && cronDayMatch e c.day w

/-- Whether minute number `k` (the instant `60 * k`) is an occurrence. -/
def cronMatchesMinute (e : CronExpr) (k : Nat) : Bool :=
  cronMatchesCivil e (civil (60 * k)) (cronDowOf (60 * k))

/-- Backward scan for the latest occurrence at or below minute `k`. -/
def findPrevMatch (e : CronExpr) : Nat → Nat → Option Nat
  | 0, _ => none
  | fuel + 1, k =>
    if cronMatchesMinute e k then some k
    else if k = 0 then none
    else findPrevMatch e fuel (k - 1)

/-- Fuel for the backward scan: one year of minutes, mirroring croniter's
bounded search (an exhausted scan fires nothing, like croniter's error
swallowed by the loop). -/
def schedFuel : Nat := 527040

/-- Model of `croniter(expr, now).get_prev(datetime)`: the latest
occurrence strictly before `now`, as seconds. -/
def cronGetPrev (e : CronExpr) (now : Nat) : Option Nat :=
  if now = 0 then none
  else (findPrevMatch e schedFuel ((now - 1) / 60)).map (· * 60)

/-! ## Schedule matcher -/

/-- The `last_runs` dict: task name to last fired bucket key. -/
abbrev LastRuns := String → Option String

/-- The empty `last_runs` dict. -/
def emptyRuns : LastRuns := fun _ => none

/-- `last_runs[name] = key`. -/
def updateRuns (runs : LastRuns) (name key : String) : LastRuns :=
  fun x => if x = name then some key else runs x

/-- `_should_run_cron` from `scheduler.py`: previous occurrence strictly
before `now` must be less than 60 seconds old, and the minute-precision
dedup key must differ from the stored one.  An unparseable expression
models croniter raising (caught by the loop: no fire). -/
def should_run_cron (sched name : String) (now : Nat) (runs : LastRuns) : Bool :=
  match parseCron sched with
  | none => false
  | some e =>
    match cronGetPrev e now with
    | none => false
    | some prev =>
      if 60 ≤ now - prev then false
      else if runs name = some (fmtMinuteKey (civil now)) then false
      else true

/-- Legacy `days` values. -/
inductive Days where
  | daily
  | weekdays
deriving DecidableEq

/-- `_should_run_legacy` from `scheduler.py`: weekday filter, then exact
hour/minute match, then the hour-precision dedup key. -/
def should_run_legacy (hour minute : Nat) (days : Days) (name : String)
    (now : Nat) (runs : LastRuns) : Bool :=
  if days = Days.weekdays ∧ 4 < pyWeekday now then false
  else if ¬((civil now).hour = hour ∧ (civil now).minute = minute) then false
  else if runs name = some (fmtHourKey (civil now)) then false
  else true

/-- A task's schedule: cron string, or legacy fixed time. -/
inductive Sched where
  | cron (s : String)
  | legacy (hour minute : Nat) (days : Days)

/-- `should_task_run` from `scheduler.py`: route on the schedule form. -/
def should_task_run_sched (sched : Sched) (name : String) (now : Nat)
    (runs : LastRuns) : Bool :=
  match sched with
  | .cron s => should_run_cron s name now runs
  | .legacy h m d => should_run_legacy h m d name now runs

/-! ## Executors -/

/-- A JSON-like value, the shape of configuration data and HTTP bodies. -/
inductive JVal where
  | null
  | bool (b : Bool)
  | num (n : Int)
  | str (s : String)
  | arr (xs : List JVal)
  | obj (fields : List (String × JVal))

/-- Python truthiness of a JSON value (`if body:`). -/
def JVal.truthy : JVal → Bool
  | .null => false
  | .bool b => b
  | .num n => n != 0
  | .str s => s ≠ ""
  | .arr xs => !xs.isEmpty
  | .obj fs => !fs.isEmpty

/-- Outcome of one `subprocess.run` call, including the raised-exception
outcomes that `run_task` catches. -/
inductive ProcResult where
  | exited (code : Int) (stdout stderr : String)
  | timedOut
  | failed (msg : String)

/-- A command-type task as `run_task` consumes it. -/
structure CmdTask where
  name : String
  command : List String
  timeout : Option Nat

/-- `run_task` from `scheduler.py`: run the command with
`task.get("timeout", 120)`; a normal exit returns the subprocess's exit
code, a timeout or any caught exception returns 1.  The oracle `exec`
stands for `subprocess.run` on (command, timeout). -/
def run_task (exec : List String → Nat → ProcResult) (t : CmdTask) : Int :=
  match exec t.command (t.timeout.getD 120) with
  | .exited code _ _ => code
  | .timedOut => 1
  | .failed _ => 1

/-- The `http` config object of an HTTP-type task. -/
structure HttpConfig where
  method : Option String
  url : String
  headers : List (String × String)
  body : Option JVal
  expectedStatus : Option (List Nat)

/-- An HTTP-type task as `run_http_task` consumes it. -/
structure HttpTask where
  name : String
  http : HttpConfig
  timeout : Option Nat

/-- The keyword arguments `run_http_task` passes to `requests.request`. -/
structure HttpRequest where
  method : String
  url : String
  headers : List (String × String)
  payload : Option JVal
  timeout : Nat

/-- Outcome of one `requests.request` call: a response, or one of the
three caught transport failures. -/
inductive HttpResult where
  | response (status : Nat) (text : String)
  | timedOut
  | connError (msg : String)
  | otherError (msg : String)

/-- The request `run_http_task` builds: method defaulted to GET and
upper-cased, and `json=body if body else None` — a missing or falsy
(empty) body sends no payload. -/
def mkHttpRequest (t : HttpTask) : HttpRequest :=
  { method := (t.http.method.getD "GET").toUpper
    url := t.http.url
    headers := t.http.headers
    payload := match t.http.body with
      | some b => if b.truthy then some b else none
      | none => none
    timeout := t.timeout.getD 120 }

/-- `run_http_task` from `scheduler.py`: 0 when the response status is in
`expected_status` (default `[200]`), 1 for any other status and for every
caught transport failure.  The oracle `send` stands for
`requests.request`. -/
def run_http_task (send : HttpRequest → HttpResult) (t : HttpTask) : Int :=
  match send (mkHttpRequest t) with
  | .response status _ =>
    if (t.http.expectedStatus.getD [200]).contains status then 0 else 1
  | .timedOut => 1
  | .connError _ => 1
  | .otherError _ => 1

/-! ## Scheduler loop step -/

/-- The executor-relevant part of a task: its `type` plus payload. -/
inductive TaskKind where
  | cmd (command : List String)
  | http (cfg : HttpConfig)

/-- A validated in-memory task definition. -/
structure TaskDef where
  name : String
  sched : Sched
  kind : TaskKind
  timeout : Option Nat

/-- `should_task_run` from `scheduler.py` on a task definition. -/
def should_task_run (t : TaskDef) (now : Nat) (runs : LastRuns) : Bool :=
  should_task_run_sched t.sched t.name now runs

/-- `_get_dedup_key` from `scheduler.py`: minute precision for cron tasks,
hour precision for legacy tasks. -/
def get_dedup_key (t : TaskDef) (now : Nat) : String :=
  match t.sched with
  | .cron _ => fmtMinuteKey (civil now)
  | .legacy _ _ _ => fmtHourKey (civil now)

/-- Dispatch per `task.get("type", "command")` in the main loop. -/
def dispatchTask (exec : List String → Nat → ProcResult)
    (send : HttpRequest → HttpResult) (t : TaskDef) : Int :=
  match t.kind with
  | .http cfg => run_http_task send { name := t.name, http := cfg, timeout := t.timeout }
  | .cmd c => run_task exec { name := t.name, command := c, timeout := t.timeout }

/-- One task's slice of a tick of `main`'s loop: evaluate the matcher,
dispatch when due, then unconditionally store the new bucket key.
Returns the new `last_runs` and the dispatch result when one happened. -/
def processTask (exec : List String → Nat → ProcResult)
    (send : HttpRequest → HttpResult) (t : TaskDef) (now : Nat)
    (runs : LastRuns) : LastRuns × Option Int :=
  if should_task_run t now runs then
    (updateRuns runs t.name (get_dedup_key t now), some (dispatchTask exec send t))
  else (runs, none)

/-! ## Configuration validation -/

/-- Lookup in a JSON object (Python `key in task` / `task[key]`). -/
def jLookup (fs : List (String × JVal)) (k : String) : Option JVal :=
  (fs.find? (fun p => p.1 = k)).map (·.2)

/-- Python `int` reading of a JSON value: `bool` is an `int` subclass. -/
def jAsInt : JVal → Option Int
  | .num n => some n
  | .bool b => some (if b then 1 else 0)
  | _ => none

/-- Whether a `type` value is one of `VALID_TASK_TYPES`. -/
def isValidType : JVal → Bool
  | .str s => s = "command" || s = "http"
  | _ => false

/-- Whether a `type` value selects the HTTP executor. -/
def isHttpType : JVal → Bool
  | .str s => s = "http"
  | _ => false

/-- `_validate_cron_task`: the schedule must be a string accepted by
`croniter.is_valid` (modelled by `parseCron`). -/
def validate_cron_value (sv : JVal) : Except String Unit :=
  match sv with
  | .str s =>
    if (parseCron s).isSome then .ok ()
    else .error "invalid cron expression"
  | _ => .error "schedule must be a string"

/-- `_validate_legacy_task`: all of `LEGACY_REQUIRED_FIELDS` present, then
`days`, `hour`, `minute` checked in that order.  A non-integer hour or
minute raises in Python (`TypeError` from the comparison), an error
either way. -/
def validate_legacy_task (fs : List (String × JVal)) : Except String Unit :=
  if (jLookup fs "name").isNone ∨ (jLookup fs "hour").isNone ∨
      (jLookup fs "minute").isNone ∨ (jLookup fs "days").isNone ∨
      (jLookup fs "command").isNone then
    .error "missing fields"
  else
    match jLookup fs "days" with
    | some (.str d) =>
      if d = "daily" ∨ d = "weekdays" then
        match (jLookup fs "hour").bind jAsInt with
        | some h =>
          if 0 ≤ h ∧ h ≤ 23 then
            match (jLookup fs "minute").bind jAsInt with
            | some m =>
              if 0 ≤ m ∧ m ≤ 59 then .ok () else .error "invalid minute"
            | none => .error "minute is not a number"
          else .error "invalid hour"
        | none => .error "hour is not a number"
      else .error "invalid days"
    | _ => .error "invalid days"

/-- `_validate_http_task`: an `http` dict with a `url`, and a method
drawn from the allowed five (default GET); a non-string method raises in
Python (`AttributeError` from `.upper()`), an error either way. -/
def validate_http_task (fs : List (String × JVal)) : Except String Unit :=
  match jLookup fs "http" with
  | none => .error "requires an http config object"
  | some (.obj hf) =>
    if (jLookup hf "url").isNone then .error "http config missing url"
    else
      match (jLookup hf "method").getD (.str "GET") with
      | .str m =>
        if ["GET", "POST", "PUT", "DELETE", "PATCH"].contains m.toUpper then
          .ok ()
        else .error "invalid HTTP method"
      | _ => .error "method is not a string"
  | some _ => .error "http config must be a dict"

/-- `validate_task` from `scheduler.py`: dict shape, `name`, `type`, then
cron or legacy schedule validation, then the type-specific check. -/
def validate_task (j : JVal) : Except String Unit :=
  match j with
  | .obj fs =>
    if (jLookup fs "name").isNone then .error "Task missing required field: name"
    else if ¬isValidType ((jLookup fs "type").getD (.str "command")) then
      .error "invalid type"
    else
      match (match jLookup fs "schedule" with
             | some sv => validate_cron_value sv
             | none => validate_legacy_task fs) with
      | .error e => .error e
      | .ok () =>
        if isHttpType ((jLookup fs "type").getD (.str "command")) then
          validate_http_task fs
        else
          match jLookup fs "command" with
          | none => .error "type command requires a command field"
          | some (.arr xs) =>
            if xs.isEmpty then .error "command must be a non-empty list" else .ok ()
          | some _ => .error "command must be a non-empty list"
  | _ => .error "Each task must be a dict"

/-- Validate every task of a parsed config. -/
def validateAll : List JVal → Except String Unit
  | [] => .ok ()
  | t :: ts =>
    match validate_task t with
    | .error e => .error e
    | .ok () => validateAll ts

/-- `load_tasks` from `scheduler.py`, after the file read and JSON parse:
reject a non-array top level, validate every task, return the list. -/
def load_tasks (j : JVal) : Except String (List JVal) :=
  match j with
  | .arr ts =>
    match validateAll ts with
    | .error e => .error e
    | .ok () => .ok ts
  | _ => .error "Task config must be a JSON array"

/-- Whether a loader/validator call raised. -/
def isErr : Except String Unit → Bool
  | .error _ => true
  | .ok () => false

/-- Whether `load_tasks` raised. -/
def loadIsErr : Except String (List JVal) → Bool
  | .error _ => true
  | .ok _ => false

/-! ## Matcher characterization -/

theorem findPrevMatch_of_matches (e : CronExpr) (fuel k : Nat) (hf : fuel ≠ 0)
    (hm : cronMatchesMinute e k = true) : findPrevMatch e fuel k = some k := by
  cases fuel with
  | zero => exact absurd rfl hf
  | succ n => simp [findPrevMatch, hm]

theorem findPrevMatch_sound (e : CronExpr) (fuel : Nat) :
    ∀ k m : Nat, findPrevMatch e fuel k = some m →
      m ≤ k ∧ cronMatchesMinute e m = true := by
  induction fuel with
  | zero => intro k m h; simp [findPrevMatch] at h
  | succ n ih =>
    intro k m h
    rw [findPrevMatch] at h
    by_cases hm : cronMatchesMinute e k = true
    · rw [if_pos hm] at h
      cases h
      exact ⟨Nat.le_refl _, hm⟩
    · rw [if_neg hm] at h
      by_cases hk : k = 0
      · rw [if_pos hk] at h; cases h
      · rw [if_neg hk] at h
        obtain ⟨h1, h2⟩ := ih (k - 1) m h
        exact ⟨Nat.le_trans h1 (Nat.sub_le _ _), h2⟩

theorem schedFuel_ne_zero : schedFuel ≠ 0 := by
  unfold schedFuel
  omega

/-- The branch structure of `_should_run_cron` collapses to: the current
minute matches, `now` is not minute-aligned (the strictly-previous
occurrence is then less than 60 s old), and the dedup key is fresh. -/
theorem should_run_cron_iff (s : String) (e : CronExpr) (name : String)
    (now : Nat) (runs : LastRuns) (hp : parseCron s = some e) :
    should_run_cron s name now runs = true ↔
      now % 60 ≠ 0 ∧ cronMatchesMinute e (now / 60) = true ∧
        runs name ≠ some (fmtMinuteKey (civil now)) := by
  simp only [should_run_cron, cronGetPrev, hp]
  by_cases h0 : now = 0
  · subst h0
    simp
  · rw [if_neg h0]
    by_cases hm : cronMatchesMinute e ((now - 1) / 60) = true
    · rw [findPrevMatch_of_matches e schedFuel _ schedFuel_ne_zero hm]
      simp only [Option.map_some']
      by_cases hz : now % 60 = 0
      · have hd : 60 ≤ now - (now - 1) / 60 * 60 := by omega
        rw [if_pos hd]
        simp [hz]
      · have hd : ¬60 ≤ now - (now - 1) / 60 * 60 := by omega
        have hq : (now - 1) / 60 = now / 60 := by omega
        rw [if_neg hd]
        rw [hq] at hm
        by_cases hdup : runs name = some (fmtMinuteKey (civil now))
        · simp [hdup]
        · simp [hdup, hz, hm]
    · cases hres : findPrevMatch e schedFuel ((now - 1) / 60) with
      | none =>
        simp only [Option.map_none', Bool.false_eq_true, false_iff]
        rintro ⟨hz, hmm, -⟩
        have hq : (now - 1) / 60 = now / 60 := by omega
        exact hm (hq ▸ hmm)
      | some m =>
        obtain ⟨hle, hmm⟩ := findPrevMatch_sound e schedFuel _ m hres
        have hne : m ≠ (now - 1) / 60 := fun h => hm (h ▸ hmm)
        have hd : 60 ≤ now - m * 60 := by omega
        simp only [Option.map_some']
        rw [if_pos hd]
        simp only [Bool.false_eq_true, false_iff]
        rintro ⟨hz, hmm2, -⟩
        have hq : (now - 1) / 60 = now / 60 := by omega
        exact hm (hq ▸ hmm2)

/-- An occurrence strictly within the last 60 seconds exists exactly when
the current minute matches and `now` is not minute-aligned. -/
theorem cron_window_iff (e : CronExpr) (now : Nat) :
    (∃ k, cronMatchesMinute e k = true ∧ 60 * k < now ∧ now - 60 * k < 60) ↔
      now % 60 ≠ 0 ∧ cronMatchesMinute e (now / 60) = true := by
  constructor
  · rintro ⟨k, hk, h1, h2⟩
    have hke : k = now / 60 ∧ now % 60 ≠ 0 := by omega
    exact ⟨hke.2, hke.1 ▸ hk⟩
  · rintro ⟨hz, hm⟩
    exact ⟨now / 60, hm, by omega, by omega⟩

theorem civil_hour_eq (s : Nat) : (civil s).hour = s % 86400 / 3600 := rfl

theorem civil_minute_eq (s : Nat) : (civil s).minute = s % 86400 % 3600 / 60 := rfl

theorem civil_second_eq (s : Nat) : (civil s).second = s % 60 := rfl

theorem civil_month_eq (s : Nat) : (civil s).month = (civilFromDays (s / 86400)).2.1 := rfl

theorem civil_day_eq (s : Nat) : (civil s).day = (civilFromDays (s / 86400)).2.2 := rfl

theorem civil_minute_lt (s : Nat) : (civil s).minute < 60 := by
  rw [civil_minute_eq]
  omega

theorem civil_hour_lt (s : Nat) : (civil s).hour < 24 := by
  rw [civil_hour_eq]
  omega

theorem pyWeekday_lt (s : Nat) : pyWeekday s < 7 := by
  unfold pyWeekday
  omega

/-- Matching the minute of `now` is matching the civil fields of `now`
itself: truncating to the minute changes no field the expression reads. -/
theorem cronMatchesMinute_div60 (e : CronExpr) (now : Nat) :
    cronMatchesMinute e (now / 60) =
      (e.minute.matches (civil now).minute && e.hour.matches (civil now).hour &&
        e.month.matches (civil now).month &&
        cronDayMatch e (civil now).day (cronDowOf now)) := by
  unfold cronMatchesMinute cronMatchesCivil cronDowOf pyWeekday
  have h1 : 60 * (now / 60) / 86400 = now / 86400 := by omega
  have h2 : 60 * (now / 60) % 86400 / 3600 = now % 86400 / 3600 := by omega
  have h3 : 60 * (now / 60) % 86400 % 3600 / 60 = now % 86400 % 3600 / 60 := by omega
  rw [civil_minute_eq, civil_minute_eq, civil_hour_eq, civil_hour_eq,
    civil_month_eq, civil_month_eq, civil_day_eq, civil_day_eq, h1, h2, h3]

/-- A stored dedup key equal to the current minute key suppresses a cron
task no matter what else holds. -/
theorem should_run_cron_suppressed (s name : String) (now : Nat)
    (runs : LastRuns) (h : runs name = some (fmtMinuteKey (civil now))) :
    should_run_cron s name now runs = false := by
  cases hp : parseCron s with
  | none => simp [should_run_cron, hp]
  | some e =>
    cases hg : cronGetPrev e now with
    | none => simp [should_run_cron, hp, hg]
    | some prev =>
      simp only [should_run_cron, hp, hg, h]
      split <;> simp

/-- A stored dedup key equal to the current hour key suppresses a legacy
task no matter what else holds. -/
theorem should_run_legacy_suppressed (hour minute : Nat) (days : Days)
    (name : String) (now : Nat) (runs : LastRuns)
    (h : runs name = some (fmtHourKey (civil now))) :
    should_run_legacy hour minute days name now runs = false := by
  unfold should_run_legacy
  simp only [h]
  split
  · rfl
  · split <;> simp

/-- The branch structure of `_should_run_legacy` as one conjunction. -/
theorem should_run_legacy_iff (hour minute : Nat) (days : Days)
    (name : String) (now : Nat) (runs : LastRuns) :
    should_run_legacy hour minute days name now runs = true ↔
      (civil now).hour = hour ∧ (civil now).minute = minute ∧
        (days ≠ Days.weekdays ∨ pyWeekday now ≤ 4) ∧
        runs name ≠ some (fmtHourKey (civil now)) := by
  unfold should_run_legacy
  by_cases h1 : days = Days.weekdays ∧ 4 < pyWeekday now
  · rw [if_pos h1]
    simp only [Bool.false_eq_true, false_iff]
    rintro ⟨-, -, hd, -⟩
    rcases hd with hd | hd
    · exact hd h1.1
    · omega
  · rw [if_neg h1]
    by_cases h2 : (civil now).hour = hour ∧ (civil now).minute = minute
    · rw [if_neg (not_not_intro h2)]
      by_cases h3 : runs name = some (fmtHourKey (civil now))
      · rw [if_pos h3]
        simp only [Bool.false_eq_true, false_iff]
        rintro ⟨-, -, -, hd⟩
        exact hd h3
      · rw [if_neg h3]
        constructor
        · intro _
          refine ⟨h2.1, h2.2, ?_, h3⟩
          by_cases hw : days = Days.weekdays
          · have hle : ¬4 < pyWeekday now := fun hgt => h1 ⟨hw, hgt⟩
            right
            omega
          · exact Or.inl hw
        · intro _
          rfl
    · rw [if_pos h2]
      simp only [Bool.false_eq_true, false_iff]
      rintro ⟨hh, hm, -, -⟩
      exact h2 ⟨hh, hm⟩

/-! ## Concrete schedules and scenario constants -/

/-- The parse of `"*/10 6-13 * * 1-5"`. -/
def e7 : CronExpr :=
  { minute := { star := false, vals := [0, 10, 20, 30, 40, 50] }
    hour := { star := false, vals := [6, 7, 8, 9, 10, 11, 12, 13] }
    dom := { star := true, vals := natRangeStep 1 31 1 }
    month := { star := true, vals := natRangeStep 1 12 1 }
    dow := { star := false, vals := [1, 2, 3, 4, 5] } }

theorem parse_e7 : parseCron "*/10 6-13 * * 1-5" = some e7 := by decide

/-- The parse of `"0 1 * * *"`. -/
def eDaily1am : CronExpr :=
  { minute := { star := false, vals := [0] }
    hour := { star := false, vals := [1] }
    dom := { star := true, vals := natRangeStep 1 31 1 }
    month := { star := true, vals := natRangeStep 1 12 1 }
    dow := { star := true, vals := (natRangeStep 0 7 1).map (· % 7) } }

theorem parse_eDaily1am : parseCron "0 1 * * *" = some eDaily1am := by decide

theorem e7_minute_mem : ∀ m : Nat, m < 60 →
    ([0, 10, 20, 30, 40, 50].contains m = decide (m % 10 = 0)) := by decide

theorem e7_hour_mem : ∀ h : Nat, h < 24 →
    ([6, 7, 8, 9, 10, 11, 12, 13].contains h = decide (6 ≤ h ∧ h ≤ 13)) := by decide

theorem e7_dow_mem : ∀ p : Nat, p < 7 →
    ([1, 2, 3, 4, 5].contains ((p + 1) % 7) = decide (p ≤ 4)) := by decide

/-- The end-to-end scenario task `t1` of the spec. -/
def t1Task : TaskDef :=
  { name := "t1", sched := .cron "0 1 * * *", kind := .cmd ["echo", "hi"],
    timeout := none }

/-- Oracle for `subprocess.run` on `echo hi`: prints `hi`, exits 0. -/
def echoExec : List String → Nat → ProcResult := fun _ _ => .exited 0 "hi\n" ""

/-- An HTTP oracle a command task never consults. -/
def unusedSend : HttpRequest → HttpResult := fun _ => .otherError "unused"

/-- A sample legacy daily task. -/
def wTask : TaskDef :=
  { name := "w", sched := .legacy 1 0 .daily, kind := .cmd ["echo"],
    timeout := none }

/-- A weekday-only legacy task at 09:30, the spec's Saturday scenario. -/
def wdTask : TaskDef :=
  { name := "wd", sched := .legacy 9 30 .weekdays, kind := .cmd ["echo"],
    timeout := none }

/-! ## Claim theorems -/

/-- C2: for every legacy-form task, timestamp and dedup state,
`should_task_run` is true iff the hour and minute of `now` equal the
configured ones, the task is not weekday-restricted or the weekday of
`now` is Monday–Friday (index ≤ 4, Monday = 0), and the stored value for
the task's name differs from the hour-precision key `YYYY-MM-DD HH`. -/
theorem legacy_matcher_fires_iff (t : TaskDef) (hour minute : Nat)
    (days : Days) (now : Nat) (runs : LastRuns)
    (hs : t.sched = .legacy hour minute days) :
    should_task_run t now runs = true ↔
      (civil now).hour = hour ∧ (civil now).minute = minute ∧
        (days ≠ Days.weekdays ∨ pyWeekday now ≤ 4) ∧
        runs t.name ≠ some (fmtHourKey (civil now)) := by
  unfold should_task_run should_task_run_sched
  rw [hs]
  exact should_run_legacy_iff hour minute days t.name now runs

/-- Witness for C2: the weekday-only 09:30 task on Saturday 2026-02-21
09:30:00 does not fire even on an empty dedup state. -/
theorem legacy_matcher_fires_iff_witness :
    should_task_run wdTask 1771666200 emptyRuns = false := by
  have h := legacy_matcher_fires_iff wdTask 9 30 Days.weekdays 1771666200
    emptyRuns rfl
  cases hv : should_task_run wdTask 1771666200 emptyRuns with
  | false => rfl
  | true =>
    obtain ⟨-, -, hd, -⟩ := h.mp hv
    rcases hd with hd | hd
    · exact absurd rfl hd
    · revert hd
      decide

/-- C1 (amended): for every cron-form task whose schedule parses, every
timestamp and dedup state, `should_task_run` is true iff some cron
occurrence lies strictly inside the window `(now − 60 s, now)` — that is,
the most recent occurrence *strictly before* `now` is less than
60 seconds old — and the stored value for the task's name differs from
the minute-precision key `YYYY-MM-DD HH:MM` of `now`.  In particular a
timestamp whose prior occurrence is 60 s or more in the past never
fires.  (The claim's "at or before `now`" fails at exactly
minute-aligned instants, see the counterexample.) -/
theorem cron_matcher_fires_iff (t : TaskDef) (s : String) (e : CronExpr)
    (now : Nat) (runs : LastRuns) (hs : t.sched = .cron s)
    (hp : parseCron s = some e) :
    should_task_run t now runs = true ↔
      (∃ k, cronMatchesMinute e k = true ∧ 60 * k < now ∧ now - 60 * k < 60) ∧
        runs t.name ≠ some (fmtMinuteKey (civil now)) := by
  unfold should_task_run should_task_run_sched
  rw [hs]
  rw [should_run_cron_iff s e t.name now runs hp, cron_window_iff]
  tauto

/-- Witness for C1 (amended) at 2026-02-19 01:00:15. -/
theorem cron_matcher_fires_iff_witness :
    should_task_run t1Task 1771462815 emptyRuns = true ↔
      (∃ k, cronMatchesMinute eDaily1am k = true ∧ 60 * k < 1771462815 ∧
          1771462815 - 60 * k < 60) ∧
        emptyRuns "t1" ≠ some (fmtMinuteKey (civil 1771462815)) :=
  cron_matcher_fires_iff t1Task "0 1 * * *" eDaily1am 1771462815 emptyRuns
    rfl parse_eDaily1am

set_option maxRecDepth 100000 in
/-- C1 counterexample: at exactly 2026-02-19 01:00:00 Pacific the most
recent occurrence of `0 1 * * *` at or before `now` is `now` itself
(distance 0 < 60 s) and the empty dedup state differs from the minute
key, yet `should_task_run` returns false, because croniter's `get_prev`
looks strictly before `now` and finds the previous day's occurrence. -/
theorem cron_matcher_at_or_before_counterexample :
    should_task_run t1Task 1771462800 emptyRuns = false ∧
      civil 1771462800 =
        { year := 2026, month := 2, day := 19, hour := 1, minute := 0,
          second := 0 } ∧
      (∃ k, cronMatchesMinute eDaily1am k = true ∧ 60 * k ≤ 1771462800 ∧
          1771462800 - 60 * k < 60) ∧
      emptyRuns "t1" ≠ some (fmtMinuteKey (civil 1771462800)) := by
  refine ⟨by decide, by decide, ⟨29524380, by decide, by decide, by decide⟩, ?_⟩
  intro h
  exact Option.noConfusion h

/-- C9: for every task, firing and then storing `_get_dedup_key` for the
task's name suppresses a second evaluation at the same timestamp: the
bucket key the loop writes is exactly the key the matcher checks, for
both schedule forms. -/
theorem fire_then_update_suppresses (t : TaskDef) (now : Nat)
    (runs : LastRuns) (_h : should_task_run t now runs = true) :
    should_task_run t now (updateRuns runs t.name (get_dedup_key t now)) = false := by
  unfold should_task_run should_task_run_sched
  cases hs : t.sched with
  | cron s =>
    apply should_run_cron_suppressed
    simp [updateRuns, get_dedup_key, hs]
  | legacy hh mm dd =>
    apply should_run_legacy_suppressed
    simp [updateRuns, get_dedup_key, hs]

/-- Witness for C9 at the cron scenario instant. -/
theorem fire_then_update_suppresses_witness :
    should_task_run t1Task 1771462815
      (updateRuns emptyRuns "t1" (get_dedup_key t1Task 1771462815)) = false :=
  fire_then_update_suppresses t1Task 1771462815 emptyRuns (by decide)

/-- C5: in a loop iteration, a task whose matcher returned true is
dispatched to the executor selected by its `type`, and the dedup entry
for its name is set to the new bucket key whatever the dispatch outcome
was (the oracles are universally quantified), so the task cannot fire
again at any later instant of the same bucket. -/
theorem loop_updates_dedup_unconditionally
    (exec : List String → Nat → ProcResult) (send : HttpRequest → HttpResult)
    (t : TaskDef) (now : Nat) (runs : LastRuns)
    (h : should_task_run t now runs = true) :
    processTask exec send t now runs =
        (updateRuns runs t.name (get_dedup_key t now),
          some (dispatchTask exec send t)) ∧
      ∀ later : Nat, get_dedup_key t later = get_dedup_key t now →
        should_task_run t later
          (updateRuns runs t.name (get_dedup_key t now)) = false := by
  constructor
  · unfold processTask
    rw [if_pos h]
  · intro later hk
    have hstored : updateRuns runs t.name (get_dedup_key t now) t.name =
        some (get_dedup_key t later) := by
      simp [updateRuns, hk]
    unfold should_task_run should_task_run_sched
    cases hs : t.sched with
    | cron s =>
      apply should_run_cron_suppressed
      rw [hstored]
      simp [get_dedup_key, hs]
    | legacy hh mm dd =>
      apply should_run_legacy_suppressed
      rw [hstored]
      simp [get_dedup_key, hs]

/-- Witness for C5: a failing dispatch (the subprocess oracle reports a
launch error) still stores the bucket key and suppresses the re-fire. -/
theorem loop_updates_dedup_unconditionally_witness :
    processTask (fun _ _ => .failed "boom") unusedSend wTask 1771462815 emptyRuns =
        (updateRuns emptyRuns "w" (get_dedup_key wTask 1771462815), some 1) ∧
      should_task_run wTask 1771462815
        (updateRuns emptyRuns "w" (get_dedup_key wTask 1771462815)) = false := by
  have h := loop_updates_dedup_unconditionally (fun _ _ => .failed "boom")
    unusedSend wTask 1771462815 emptyRuns (by decide)
  exact ⟨h.1, h.2 1771462815 rfl⟩

/-- C6: the scenario task `t1` with schedule `0 1 * * *` fires at
2026-02-19 01:00:15 Pacific on an empty dedup state; the loop step
dispatches `echo hi` successfully (result 0) and stores
`"t1" ↦ "2026-02-19 01:00"`; re-evaluating at 01:00:45 against the
updated state returns false. -/
theorem scenario_t1_cron_fire_and_dedup :
    civil 1771462815 =
        { year := 2026, month := 2, day := 19, hour := 1, minute := 0,
          second := 15 } ∧
      should_task_run t1Task 1771462815 emptyRuns = true ∧
      (processTask echoExec unusedSend t1Task 1771462815 emptyRuns).1 "t1" =
        some "2026-02-19 01:00" ∧
      (processTask echoExec unusedSend t1Task 1771462815 emptyRuns).2 = some 0 ∧
      civil 1771462845 =
        { year := 2026, month := 2, day := 19, hour := 1, minute := 0,
          second := 45 } ∧
      should_task_run t1Task 1771462845
        ((processTask echoExec unusedSend t1Task 1771462815 emptyRuns).1) = false :=
  ⟨by decide, by decide, by decide, by decide, by decide, by decide⟩

/-- C7: with an empty dedup state the schedule `*/10 6-13 * * 1-5` fires
exactly at timestamps strictly inside the 60-second window after an
occurrence whose minute is a multiple of 10, whose hour is 6–13 and
whose weekday is Monday–Friday; and it never fires outside that hour
range, on Saturday or Sunday, or at a minute that is not a multiple of
10. -/
theorem cron_every10_window (name : String) (now : Nat) :
    ((civil now).minute % 10 = 0 → 6 ≤ (civil now).hour →
        (civil now).hour ≤ 13 → pyWeekday now ≤ 4 → 1 ≤ now % 60 →
        should_run_cron "*/10 6-13 * * 1-5" name now emptyRuns = true) ∧
      ((civil now).hour < 6 ∨ 13 < (civil now).hour ∨ 4 < pyWeekday now ∨
          (civil now).minute % 10 ≠ 0 →
        should_run_cron "*/10 6-13 * * 1-5" name now emptyRuns = false) := by
  have hmlt := civil_minute_lt now
  have hhlt := civil_hour_lt now
  have hwlt := pyWeekday_lt now
  have e1 : e7.minute.matches (civil now).minute =
      decide ((civil now).minute % 10 = 0) := e7_minute_mem _ hmlt
  have e2 : e7.hour.matches (civil now).hour =
      decide (6 ≤ (civil now).hour ∧ (civil now).hour ≤ 13) := e7_hour_mem _ hhlt
  have e3 : e7.month.matches (civil now).month = true := rfl
  have e4 : cronDayMatch e7 (civil now).day (cronDowOf now) =
      decide (pyWeekday now ≤ 4) := e7_dow_mem _ hwlt
  have hmatch : cronMatchesMinute e7 (now / 60) = true ↔
      ((civil now).minute % 10 = 0 ∧
        (6 ≤ (civil now).hour ∧ (civil now).hour ≤ 13) ∧ pyWeekday now ≤ 4) := by
    rw [cronMatchesMinute_div60, e1, e2, e3, e4]
    simp only [Bool.and_eq_true, Bool.and_true, decide_eq_true_eq]
    tauto
  constructor
  · intro p1 p2 p3 p4 p5
    rw [should_run_cron_iff _ e7 _ _ _ parse_e7]
    refine ⟨by omega, hmatch.mpr ⟨p1, ⟨p2, p3⟩, p4⟩, ?_⟩
    intro hcontra
    exact Option.noConfusion hcontra
  · intro hcase
    cases hv : should_run_cron "*/10 6-13 * * 1-5" name now emptyRuns with
    | false => rfl
    | true =>
      exfalso
      obtain ⟨hz, hmm, -⟩ := (should_run_cron_iff _ e7 _ _ _ parse_e7).mp hv
      obtain ⟨p1, ⟨p2a, p2b⟩, p4⟩ := hmatch.mp hmm
      rcases hcase with h | h | h | h <;> omega

/-- Witness for C7: fires on Thursday 2026-02-19 06:00:10, does not fire
at 14:00:10 the same day. -/
theorem cron_every10_window_witness :
    should_run_cron "*/10 6-13 * * 1-5" "x" 1771480810 emptyRuns = true ∧
      should_run_cron "*/10 6-13 * * 1-5" "x" 1771509610 emptyRuns = false :=
  ⟨(cron_every10_window "x" 1771480810).1 (by decide) (by decide) (by decide)
      (by decide) (by decide),
    (cron_every10_window "x" 1771509610).2 (Or.inr (Or.inl (by decide)))⟩

/-- C3: `run_task` is a total function of the subprocess oracle's answer
at `(command, timeout.getD 120)` — it never propagates an exception.  A
normal exit returns the subprocess's exit code (so 0 on success and the
same nonzero code on failure), a timeout returns the failure result 1,
and a launch or runtime error also returns the failure result 1. -/
theorem run_task_outcomes (exec : List String → Nat → ProcResult)
    (t : CmdTask) :
    (∀ code out err,
        exec t.command (t.timeout.getD 120) = .exited code out err →
        run_task exec t = code) ∧
      (exec t.command (t.timeout.getD 120) = .timedOut →
        run_task exec t = 1) ∧
      (∀ msg, exec t.command (t.timeout.getD 120) = .failed msg →
        run_task exec t = 1) := by
  refine ⟨?_, ?_, ?_⟩ <;> intros <;> unfold run_task <;> simp_all

/-- Witness for C3: a nonzero exit code 7 is returned as is, a timeout
and a launch failure both yield 1, with the default 120-second timeout
argument. -/
theorem run_task_outcomes_witness :
    run_task (fun _ _ => .exited 7 "" "boom") { name := "c", command := ["x"], timeout := none } = 7 ∧
      run_task (fun _ _ => .timedOut) { name := "c", command := ["x"], timeout := none } = 1 ∧
      run_task (fun _ _ => .failed "not found") { name := "c", command := ["x"], timeout := none } = 1 :=
  ⟨(run_task_outcomes (fun _ _ => .exited 7 "" "boom")
      { name := "c", command := ["x"], timeout := none }).1 7 "" "boom" rfl,
    (run_task_outcomes (fun _ _ => .timedOut)
      { name := "c", command := ["x"], timeout := none }).2.1 rfl,
    (run_task_outcomes (fun _ _ => .failed "not found")
      { name := "c", command := ["x"], timeout := none }).2.2 "not found" rfl⟩

/-- C4: `run_http_task` is a total function of the transport oracle's
answer — it never propagates an exception.  A response yields 0 exactly
when its status is in `expected_status` (default `[200]`) and 1
otherwise; a timeout, connection failure or any other transport error
yields 1; and a missing or empty-structure body attaches no payload to
the outgoing request. -/
theorem run_http_task_outcomes (send : HttpRequest → HttpResult)
    (t : HttpTask) :
    (∀ status text, send (mkHttpRequest t) = .response status text →
        run_http_task send t =
          if (t.http.expectedStatus.getD [200]).contains status then 0 else 1) ∧
      (send (mkHttpRequest t) = .timedOut → run_http_task send t = 1) ∧
      (∀ msg, send (mkHttpRequest t) = .connError msg →
        run_http_task send t = 1) ∧
      (∀ msg, send (mkHttpRequest t) = .otherError msg →
        run_http_task send t = 1) ∧
      (t.http.body = none ∨ t.http.body = some (.obj []) ∨
          t.http.body = some (.arr []) →
        (mkHttpRequest t).payload = none) := by
  refine ⟨?_, ?_, ?_, ?_, ?_⟩
  · intro status text hsend
    unfold run_http_task
    rw [hsend]
  · intro hsend
    unfold run_http_task
    rw [hsend]
  · intro msg hsend
    unfold run_http_task
    rw [hsend]
  · intro msg hsend
    unfold run_http_task
    rw [hsend]
  · intro hbody
    show (match t.http.body with
          | some b => if b.truthy then some b else none
          | none => none) = none
    rcases hbody with h | h | h <;> rw [h] <;> rfl

/-- A sample HTTP task with an empty-object body and expected status
`[200, 201]`. -/
def hSample : HttpTask :=
  { name := "h"
    http :=
      { method := some "post", url := "http://backendv2:8500/tos-generate",
        headers := [("Content-Type", "application/json")],
        body := some (.obj []), expectedStatus := some [200, 201] }
    timeout := some 30 }

/-- Witness for C4: status 201 is accepted, status 500 is not, transport
failures yield 1, and the empty-object body sends no payload. -/
theorem run_http_task_outcomes_witness :
    run_http_task (fun _ => .response 201 "ok") hSample = 0 ∧
      run_http_task (fun _ => .response 500 "err") hSample = 1 ∧
      run_http_task (fun _ => .timedOut) hSample = 1 ∧
      run_http_task (fun _ => .connError "refused") hSample = 1 ∧
      run_http_task (fun _ => .otherError "boom") hSample = 1 ∧
      (mkHttpRequest hSample).payload = none := by
  refine ⟨?_, ?_, ?_, ?_, ?_, ?_⟩
  · exact (run_http_task_outcomes (fun _ => .response 201 "ok") hSample).1 201 "ok" rfl
  · exact (run_http_task_outcomes (fun _ => .response 500 "err") hSample).1 500 "err" rfl
  · exact (run_http_task_outcomes (fun _ => .timedOut) hSample).2.1 rfl
  · exact (run_http_task_outcomes (fun _ => .connError "refused") hSample).2.2.1 "refused" rfl
  · exact (run_http_task_outcomes (fun _ => .otherError "boom") hSample).2.2.2.1 "boom" rfl
  · exact (run_http_task_outcomes (fun _ => .otherError "boom") hSample).2.2.2.2
      (Or.inr (Or.inl rfl))

/-! ## Validator lemmas -/

theorem validate_legacy_ok_inv (fs : List (String × JVal))
    (h : validate_legacy_task fs = .ok ()) :
    (∃ d, jLookup fs "days" = some (.str d) ∧ (d = "daily" ∨ d = "weekdays")) ∧
      (∃ hv, (jLookup fs "hour").bind jAsInt = some hv ∧ 0 ≤ hv ∧ hv ≤ 23) ∧
      (∃ mv, (jLookup fs "minute").bind jAsInt = some mv ∧ 0 ≤ mv ∧ mv ≤ 59) ∧
      (jLookup fs "command").isSome = true := by
  unfold validate_legacy_task at h
  by_cases hmiss : (jLookup fs "name").isNone ∨ (jLookup fs "hour").isNone ∨
      (jLookup fs "minute").isNone ∨ (jLookup fs "days").isNone ∨
      (jLookup fs "command").isNone
  · rw [if_pos hmiss] at h
    exact Except.noConfusion h
  · rw [if_neg hmiss] at h
    have hcmd : (jLookup fs "command").isSome = true := by
      cases hc : jLookup fs "command" with
      | none => exact absurd (Or.inr (Or.inr (Or.inr (Or.inr (by simp [hc]))))) hmiss
      | some v => rfl
    cases hd : jLookup fs "days" with
    | none => rw [hd] at h; exact Except.noConfusion h
    | some dv =>
      rw [hd] at h
      cases dv with
      | str d =>
        dsimp only at h
        by_cases hdok : d = "daily" ∨ d = "weekdays"
        · rw [if_pos hdok] at h
          cases hh : (jLookup fs "hour").bind jAsInt with
          | none => rw [hh] at h; exact Except.noConfusion h
          | some hv =>
            rw [hh] at h
            dsimp only at h
            by_cases hhr : 0 ≤ hv ∧ hv ≤ 23
            · rw [if_pos hhr] at h
              cases hm : (jLookup fs "minute").bind jAsInt with
              | none => rw [hm] at h; exact Except.noConfusion h
              | some mv =>
                rw [hm] at h
                dsimp only at h
                by_cases hmr : 0 ≤ mv ∧ mv ≤ 59
                · exact ⟨⟨d, rfl, hdok⟩, ⟨hv, rfl, hhr⟩, ⟨mv, rfl, hmr⟩, hcmd⟩
                · rw [if_neg hmr] at h
                  exact Except.noConfusion h
            · rw [if_neg hhr] at h
              exact Except.noConfusion h
        · rw [if_neg hdok] at h
          exact Except.noConfusion h
      | null => exact Except.noConfusion h
      | bool b => exact Except.noConfusion h
      | num n => exact Except.noConfusion h
      | arr xs => exact Except.noConfusion h
      | obj o => exact Except.noConfusion h

theorem validate_http_task_errs (fs : List (String × JVal))
    (hf : List (String × JVal)) (hh : jLookup fs "http" = some (.obj hf))
    (hbad : jLookup hf "url" = none ∨
      (∃ ms, jLookup hf "method" = some (.str ms) ∧
        (["GET", "POST", "PUT", "DELETE", "PATCH"].contains ms.toUpper) = false)) :
    isErr (validate_http_task fs) = true := by
  unfold validate_http_task
  rw [hh]
  dsimp only
  rcases hbad with hurl | ⟨ms, hm, hbadm⟩
  · rw [if_pos (by simp [hurl])]
    rfl
  · by_cases hurl : (jLookup hf "url").isNone
    · rw [if_pos hurl]
      rfl
    · rw [if_neg hurl, hm]
      simp only [Option.getD_some]
      rw [hbadm]
      simp [isErr]

/-- C8: the loader/validator raises an error for each of: a non-array
top level; a task missing `name`; a `type` outside command/http; a cron
schedule string failing cron-syntax validation; a legacy task with
`hour` outside 0–23, `minute` outside 0–59 or `days` outside
daily/weekdays; an http-typed task whose http config misses `url` or
names an unsupported method; and a command-typed task whose `command` is
not a non-empty list. -/
theorem loader_rejections :
    (∀ j : JVal, (∀ xs, j ≠ .arr xs) → loadIsErr (load_tasks j) = true) ∧
      (∀ fs, jLookup fs "name" = none → isErr (validate_task (.obj fs)) = true) ∧
      (∀ fs tv, jLookup fs "type" = some tv → isValidType tv = false →
        isErr (validate_task (.obj fs)) = true) ∧
      (∀ fs s, jLookup fs "schedule" = some (.str s) → parseCron s = none →
        isErr (validate_task (.obj fs)) = true) ∧
      (∀ fs, jLookup fs "schedule" = none →
        ((∃ hv, (jLookup fs "hour").bind jAsInt = some hv ∧ ¬(0 ≤ hv ∧ hv ≤ 23)) ∨
          (∃ mv, (jLookup fs "minute").bind jAsInt = some mv ∧ ¬(0 ≤ mv ∧ mv ≤ 59)) ∨
          (∃ dv, jLookup fs "days" = some dv ∧
            ∀ d, dv = .str d → d ≠ "daily" ∧ d ≠ "weekdays")) →
        isErr (validate_task (.obj fs)) = true) ∧
      (∀ fs hf, jLookup fs "http" = some (.obj hf) →
        (jLookup hf "url" = none ∨
          (∃ ms, jLookup hf "method" = some (.str ms) ∧
            (["GET", "POST", "PUT", "DELETE", "PATCH"].contains ms.toUpper) = false)) →
        isHttpType ((jLookup fs "type").getD (.str "command")) = true →
        isErr (validate_task (.obj fs)) = true) ∧
      (∀ fs cv, jLookup fs "command" = some cv →
        (∀ xs, cv = .arr xs → xs = []) →
        isHttpType ((jLookup fs "type").getD (.str "command")) = false →
        isErr (validate_task (.obj fs)) = true) := by
  refine ⟨?_, ?_, ?_, ?_, ?_, ?_, ?_⟩
  · intro j hj
    cases j with
    | arr xs => exact absurd rfl (hj xs)
    | null => rfl
    | bool b => rfl
    | num n => rfl
    | str s => rfl
    | obj fs => rfl
  · intro fs hn
    simp only [validate_task]
    rw [if_pos (by simp [hn])]
    rfl
  · intro fs tv htv hbad
    simp only [validate_task]
    by_cases hn : (jLookup fs "name").isNone
    · rw [if_pos hn]; rfl
    · rw [if_neg hn]
      have hc : ¬(isValidType ((jLookup fs "type").getD (.str "command")) = true) := by
        rw [htv]
        simp [hbad]
      rw [if_pos hc]
      rfl
  · intro fs s hsched hbad
    simp only [validate_task]
    by_cases hn : (jLookup fs "name").isNone
    · rw [if_pos hn]; rfl
    · rw [if_neg hn]
      by_cases ht : isValidType ((jLookup fs "type").getD (.str "command")) = true
      · rw [if_neg (not_not_intro ht), hsched]
        dsimp only
        unfold validate_cron_value
        dsimp only
        rw [hbad]
        rfl
      · rw [if_pos ht]; rfl
  · intro fs hsched hbad
    simp only [validate_task]
    by_cases hn : (jLookup fs "name").isNone
    · rw [if_pos hn]; rfl
    · rw [if_neg hn]
      by_cases ht : isValidType ((jLookup fs "type").getD (.str "command")) = true
      · rw [if_neg (not_not_intro ht), hsched]
        dsimp only
        cases hv : validate_legacy_task fs with
        | error e => rfl
        | ok u =>
          cases u
          exfalso
          obtain ⟨⟨d, hd, hdok⟩, ⟨h1, hh1, hr1⟩, ⟨m1, hm1, hr2⟩, -⟩ :=
            validate_legacy_ok_inv fs hv
          rcases hbad with ⟨hv2, hb, hnr⟩ | ⟨mv2, hb, hnr⟩ | ⟨dv2, hb, hprop⟩
          · rw [hh1] at hb
            cases hb
            exact hnr hr1
          · rw [hm1] at hb
            cases hb
            exact hnr hr2
          · rw [hd] at hb
            cases hb
            rcases hdok with h | h
            · exact (hprop d rfl).1 h
            · exact (hprop d rfl).2 h
      · rw [if_pos ht]; rfl
  · intro fs hf hhttp hbad htype
    simp only [validate_task]
    by_cases hn : (jLookup fs "name").isNone
    · rw [if_pos hn]; rfl
    · rw [if_neg hn]
      by_cases ht : isValidType ((jLookup fs "type").getD (.str "command")) = true
      · rw [if_neg (not_not_intro ht)]
        cases hsv : (match jLookup fs "schedule" with
                     | some sv => validate_cron_value sv
                     | none => validate_legacy_task fs) with
        | error e => rfl
        | ok u =>
          cases u
          rw [if_pos htype]
          exact validate_http_task_errs fs hf hhttp hbad
      · rw [if_pos ht]; rfl
  · intro fs cv hcmd hbad htype
    simp only [validate_task]
    by_cases hn : (jLookup fs "name").isNone
    · rw [if_pos hn]; rfl
    · rw [if_neg hn]
      by_cases ht : isValidType ((jLookup fs "type").getD (.str "command")) = true
      · rw [if_neg (not_not_intro ht)]
        cases hsv : (match jLookup fs "schedule" with
                     | some sv => validate_cron_value sv
                     | none => validate_legacy_task fs) with
        | error e => rfl
        | ok u =>
          cases u
          have hcond : ¬(isHttpType ((jLookup fs "type").getD (.str "command")) = true) := by
            simp [htype]
          rw [if_neg hcond, hcmd]
          cases cv with
          | arr xs =>
            have hxs := hbad xs rfl
            subst hxs
            rfl
          | null => rfl
          | bool b => rfl
          | num n => rfl
          | str s => rfl
          | obj o => rfl
      · rw [if_pos ht]; rfl

/-- Witness for C8 at concrete malformed configurations, one per clause. -/
theorem loader_rejections_witness :
    loadIsErr (load_tasks (.obj [])) = true ∧
      isErr (validate_task (.obj [("hour", .num 0)])) = true ∧
      isErr (validate_task (.obj [("name", .str "t"),
        ("type", .str "webhook")])) = true ∧
      isErr (validate_task (.obj [("name", .str "t"),
        ("schedule", .str "not a cron"), ("command", .arr [.str "echo"])])) = true ∧
      isErr (validate_task (.obj [("name", .str "t"), ("hour", .num 25),
        ("minute", .num 0), ("days", .str "daily"),
        ("command", .arr [.str "echo"])])) = true ∧
      isErr (validate_task (.obj [("name", .str "t"), ("type", .str "http"),
        ("schedule", .str "0 1 * * *"),
        ("http", .obj [("method", .str "POST")])])) = true ∧
      isErr (validate_task (.obj [("name", .str "t"),
        ("schedule", .str "0 1 * * *"), ("command", .arr [])])) = true := by
  refine ⟨?_, ?_, ?_, ?_, ?_, ?_, ?_⟩
  · exact loader_rejections.1 (.obj []) (fun xs h => JVal.noConfusion h)
  · exact loader_rejections.2.1 _ rfl
  · exact loader_rejections.2.2.1 _ (.str "webhook") rfl rfl
  · exact loader_rejections.2.2.2.1 _ "not a cron" rfl (by decide)
  · exact loader_rejections.2.2.2.2.1 _ rfl (Or.inl ⟨25, rfl, by omega⟩)
  · exact loader_rejections.2.2.2.2.2.1 _ [("method", .str "POST")] rfl
      (Or.inl rfl) rfl
  · exact loader_rejections.2.2.2.2.2.2 _ (.arr []) rfl
      (fun xs h => by cases h; rfl) rfl

/-- C10: an http-typed task without a `schedule` field is validated as a
legacy task, whose required fields include `command`; so an http-typed
legacy-form task lacking `command` is rejected even though `command`
is never used to dispatch an http task. -/
theorem http_legacy_requires_command (fs : List (String × JVal))
    (hsched : jLookup fs "schedule" = none)
    (htype : jLookup fs "type" = some (.str "http"))
    (hcmd : jLookup fs "command" = none) :
    isErr (validate_task (.obj fs)) = true := by
  simp only [validate_task]
  by_cases hn : (jLookup fs "name").isNone
  · rw [if_pos hn]; rfl
  · rw [if_neg hn]
    have ht : isValidType ((jLookup fs "type").getD (.str "command")) = true := by
      rw [htype]; rfl
    rw [if_neg (not_not_intro ht), hsched]
    dsimp only
    have hv : validate_legacy_task fs = .error "missing fields" := by
      unfold validate_legacy_task
      rw [if_pos (Or.inr (Or.inr (Or.inr (Or.inr (by simp [hcmd])))))]
    rw [hv]
    rfl

/-- Witness for C10: a fully populated http-typed legacy task lacking
only `command` is rejected. -/
theorem http_legacy_requires_command_witness :
    isErr (validate_task (.obj [("name", .str "t"), ("type", .str "http"),
      ("hour", .num 1), ("minute", .num 0), ("days", .str "daily"),
      ("http", .obj [("url", .str "http://x")])])) = true :=
  http_legacy_requires_command _ rfl rfl rfl
